import Mathlib

/-!
Verification development for the calgary-mlx-scraper repository.

The development shallowly embeds the adaptive partitioning core of the
scraper: the tile-expansion loop of CalgaryMLXScraper.fetch_properties
(src/scraper.py lines 103-202), the price-subdivision fallback
CalgaryMLXScraper.fetch_properties_by_prices (lines 204-262), the per-year
orchestration body of _fetch_location_with_type (lines 339-369), and the
relevant behaviour of MLXAPI.search (src/api.py lines 170-245) under the
call convention actually used by fetch_properties.

Remote responses are modelled by an oracle, a function from the index of
the HTTP request (in issue order within one window resolution) to either a
parsed response or a transport error; every theorem quantifies over the
oracle, so every possible sequence of remote responses is covered.

Records are modelled by their identity key: parse_property_data extracts a
row per listing and all merging logic in the scraper touches only the id
column (drop_duplicates on subset id), so a DataFrame of records is
embedded as the List Int of its id column in row order.

A central, carefully modelled fact: fetch_properties invokes
self.api.search(subarea_code, subarea_info, year, dwelling_type, tile,
price_from, price_to) with seven positional arguments, while MLXAPI.search
declares (self, subarea_code, subarea_info, year_from, year_to,
dwelling_type, tile=None, price_from=0, price_to=0, radius=0.02).  Python
therefore binds year_to := dwelling_type, dwelling_type := tile, tile :=
price_from (an int), price_from := price_to, price_to := 0.  Inside search,
the test (if tile and tile.id != 0) evaluates the truthiness of the integer
price_from: when price_from is nonzero the attribute access tile.id raises
AttributeError before requests.post is reached (and the except block again
evaluates tile.lat, so an exception always propagates to the caller); when
price_from is zero the test is falsy, no bounding box and no price filter
are added, and the HTTP request is issued.  The embedding reproduces this:
a search made with a nonzero scraper-level price_from fails without
consuming the oracle, and one made with price_from zero consumes exactly
one oracle index.
-/

namespace CalgaryMLX

/-- Tile dataclass of src/api.py lines 60-78.  Python __eq__ and __hash__
compare only the id field; all numeric fields are embedded as Int. -/
structure Tile where
  lat : Int
  lon : Int
  count : Int
  id : Int
  pixel_size : Int
  deriving DecidableEq, Repr

/-- MLXAPIResponse of src/api.py lines 81-132, reduced to the fields the
scraper core reads: totalFound, the parsed listing rows (as their id
column), and the parsed tiles. -/
structure MLXAPIResponse where
  total_found : Nat
  records : List Int
  tiles : List Tile
  deriving DecidableEq, Repr

/-- Result dictionary shape built by fetch_properties and
fetch_properties_by_prices: count, the df id column, and found_all. -/
structure FetchResult where
  count : Nat
  df : List Int
  found_all : Bool
  deriving DecidableEq, Repr

/-- Outcome of one fetch_properties call: the returned result dictionary,
the next unused oracle index (so q minus the starting index counts the HTTP
requests issued), the ghost trace of tiles for which a search call was
issued, and the ghost trace of all record ids merged into all_df. -/
structure FetchOut where
  res : FetchResult
  q : Nat
  queried : List Tile
  seen : List Int
  deriving DecidableEq, Repr

/-- Oracle giving, for each HTTP request index, either the parsed JSON
response or a transport failure (network error, non-2xx status raised by
raise_for_status, or malformed JSON). -/
abbrev Oracle : Type := Nat → Except Unit MLXAPIResponse

/-- Configuration constants of src/config.py lines 15-18. -/
def PRICE_FROM : Nat := 100000

/-- Upper bound of the default price range, src/config.py line 16. -/
def PRICE_TO : Nat := 2000000

/-- Default price bucket width, src/config.py line 17. -/
def PRICE_STEP : Nat := 100000

/-- Recursion floor for the price subdivision, src/config.py line 18. -/
def MIN_PRICE_STEP : Nat := 1000

/-- Membership test used by the Python expression new_tile not in tiles
(src/scraper.py line 169): list containment driven by Tile.__eq__, which
compares ids only (src/api.py lines 70-74). -/
def tileMem (t : Tile) (ts : List Tile) : Bool :=
  ts.any fun u => u.id == t.id

/-- Embedding of the inner loop at src/scraper.py lines 168-174: each tile
of the response is appended, one at a time, when no tile with the same id
is already in the list (including tiles appended moments before). -/
def addNewTiles (tiles : List Tile) : List Tile → List Tile
  | [] => tiles
  | t :: ts => if tileMem t tiles then addNewTiles tiles ts else addNewTiles (tiles ++ [t]) ts

/-- Accumulator version of pandas drop_duplicates on the id column with the
default keep first policy: a row survives when its id has not occurred in
an earlier row. -/
def dedupAux : List Int → List Int → List Int
  | [], _ => []
  | x :: xs, seen => if x ∈ seen then dedupAux xs seen else x :: dedupAux xs (x :: seen)

/-- df.drop_duplicates on subset id, keeping the first occurrence of each
id (src/scraper.py line 159 and line 367). -/
def dedupById (xs : List Int) : List Int := dedupAux xs []

/-- Result dictionary as initialised at src/scraper.py line 114 and line
217: count 0, empty df, found_all True.  This very value is returned by
the except handler of fetch_properties and by the MIN_PRICE_STEP floor of
fetch_properties_by_prices. -/
def initResult : FetchResult := ⟨0, [], true⟩

/-- One step of the tile loop of fetch_properties, src/scraper.py lines
131-197.  State: the growing tiles list, the enumerate index i, the
deduplicated all_df, total_found, the is_first flag, the next oracle index
q, and the two ghost traces.  fuel bounds the number of loop iterations the
model is willing to execute (the Python loop has no such bound; a run that
needs more iterations than fuel yields none).

Branches, in source order: a nonzero scraper-level price_from makes
api.search raise before any HTTP request (see the module docstring), and
the try/except of fetch_properties turns that into an immediate return of
the pre-initialised result; a transport error consumes one oracle index and
is caught the same way; on the first response total_found is recorded and a
zero total returns the pre-initialised result; otherwise the response rows
are concatenated and deduplicated, the loop breaks once all_df has reached
total_found (found_all compares with equality, line 195), and otherwise the
unseen response tiles are appended and the loop advances. -/
def fetchLoop (oracle : Oracle) (pf pt : Nat) :
    Nat → List Tile → Nat → List Int → Nat → Bool → Nat → List Tile → List Int →
    Option FetchOut
  | 0, _, _, _, _, _, _, _, _ => none
  | fuel + 1, tiles, i, allDf, totalFound, isFirst, q, queried, seen =>
    if h : i < tiles.length then
      if pf ≠ 0 then
        some ⟨initResult, q, queried, seen⟩
      else
        match oracle q with
        | Except.error _ => some ⟨initResult, q + 1, queried ++ [tiles.get ⟨i, h⟩], seen⟩
        | Except.ok resp =>
          let tf := if isFirst then resp.total_found else totalFound
          if isFirst ∧ tf = 0 then
            some ⟨initResult, q + 1, queried ++ [tiles.get ⟨i, h⟩], seen⟩
          else
            let allDf2 := dedupById (allDf ++ resp.records)
            let seen2 := seen ++ resp.records
            if tf ≤ allDf2.length then
              some ⟨⟨allDf2.length, allDf2, allDf2.length == tf⟩, q + 1,
                queried ++ [tiles.get ⟨i, h⟩], seen2⟩
            else
              fetchLoop oracle pf pt fuel (addNewTiles tiles resp.tiles) (i + 1) allDf2 tf
                false (q + 1) (queried ++ [tiles.get ⟨i, h⟩]) seen2
    else
      some ⟨⟨allDf.length, allDf, allDf.length == totalFound⟩, q, queried, seen⟩

/-- CalgaryMLXScraper.fetch_properties, src/scraper.py lines 103-202,
started on the seed tiles list [Tile(0,0,0,0,0), Tile(latitude, longitude,
0, 1, 0)] (lines 118-121) with empty aggregate and is_first set.  q is the
oracle index at which this call starts issuing requests. -/
def fetch_properties (oracle : Oracle) (q pf pt : Nat) (lat lon : Int) (fuel : Nat) :
    Option FetchOut :=
  fetchLoop oracle pf pt fuel [⟨0, 0, 0, 0, 0⟩, ⟨lat, lon, 0, 1, 0⟩] 0 [] 0 true q [] []

/-- Python range(a, b, s) for a positive step s: a, a+s, a+2s, while below
b.  fetch_properties_by_prices only reaches its loop with step at least
MIN_PRICE_STEP, so s is always positive there. -/
def pyRange (a b s : Nat) : List Nat := List.range' a ((b - a + s - 1) / s) s

/-- Bucket loop of fetch_properties_by_prices, src/scraper.py lines
226-256, with gas bounding the number of loop and recursion steps taken.
For each bucket price the scraper fetches [price, price+step); a zero count
skips the bucket (line 237); the bucket df is concatenated WITHOUT
deduplication (line 240); when the bucket is incomplete the scraper
recurses on the same bucket with step divided by 10 (lines 242-253) — the
inner if-else below inlines the body of fetch_properties_by_prices for
that recursive call — and concatenates a nonempty recursive df, again
without deduplication (lines 255-256). -/
def bpAux (oracle : Oracle) (lat lon : Int) (count fuel : Nat) :
    Nat → Nat → List Nat → List Int → Nat → Option (List Int × Nat)
  | 0, _, _, _, _ => none
  | _ + 1, _, [], allDf, q => some (allDf, q)
  | gas + 1, step, price :: rest, allDf, q =>
    match fetch_properties oracle q price (price + step) lat lon fuel with
    | none => none
    | some out =>
      if out.res.count = 0 then
        bpAux oracle lat lon count fuel gas step rest allDf out.q
      else
        let allDf2 := allDf ++ out.res.df
        if out.res.found_all then
          bpAux oracle lat lon count fuel gas step rest allDf2 out.q
        else
          match (if step / 10 < MIN_PRICE_STEP then some (initResult, out.q)
                 else
                   match bpAux oracle lat lon count fuel gas (step / 10)
                       (pyRange price (price + step) (step / 10)) [] out.q with
                   | none => none
                   | some (adf, q2) =>
                     some ((⟨adf.length, adf, adf.length == count⟩ : FetchResult), q2)) with
          | none => none
          | some (res2, q2) =>
            bpAux oracle lat lon count fuel gas step rest
              (if 0 < res2.count then allDf2 ++ res2.df else allDf2) q2

/-- CalgaryMLXScraper.fetch_properties_by_prices, src/scraper.py lines
204-262.  Below the MIN_PRICE_STEP floor the function logs a warning and
returns the result dictionary exactly as initialised at line 217 (count 0,
empty df, found_all True).  Otherwise it runs the bucket loop and then
overwrites all three result fields: count and df from the concatenated
all_df, and found_all comparing len(all_df) with the count argument
(line 260) — the caller passes the record count retrieved by the initial
fetch, not total_found. -/
def fetch_properties_by_prices (oracle : Oracle) (lat lon : Int) (count fuel gas : Nat)
    (pf pt step q : Nat) : Option (FetchResult × Nat) :=
  if step < MIN_PRICE_STEP then some (initResult, q)
  else
    match bpAux oracle lat lon count fuel gas step (pyRange pf pt step) [] q with
    | none => none
    | some (adf, q2) => some (⟨adf.length, adf, adf.length == count⟩, q2)

/-- Per-year body of _fetch_location_with_type, src/scraper.py lines
340-369: run fetch_properties with default prices; skip the year when it is
complete and empty; otherwise, when incomplete, run the price subdivision
with count set to the retrieved count of the initial fetch (line 357) and
its configured default price range; concatenate the subdivision df with the
initial df and deduplicate.  The returned pair is the deduplicated id list
contributed by the year and the next unused oracle index. -/
def resolveYear (oracle : Oracle) (q : Nat) (lat lon : Int) (fuel gas : Nat) :
    Option (List Int × Nat) :=
  match fetch_properties oracle q 0 0 lat lon fuel with
  | none => none
  | some out =>
    if out.res.found_all ∧ out.res.count = 0 then some ([], out.q)
    else if out.res.found_all then some (dedupById out.res.df, out.q)
    else
      match fetch_properties_by_prices oracle lat lon out.res.count fuel gas
          PRICE_FROM PRICE_TO PRICE_STEP out.q with
      | none => none
      | some (nr, q2) => some (dedupById (nr.df ++ out.res.df), q2)

/-- Termination of one fetch_properties call: some fuel bound suffices for
the tile loop to return. -/
def fetchTerminates (oracle : Oracle) (q pf pt : Nat) (lat lon : Int) : Prop :=
  ∃ fuel, (fetch_properties oracle q pf pt lat lon fuel).isSome

/-- Membership in dedupAux: a row survives iff it occurs in the input and
its id is not in the already-seen accumulator. -/
theorem mem_dedupAux : ∀ (xs seen : List Int) (a : Int),
    a ∈ dedupAux xs seen ↔ a ∈ xs ∧ a ∉ seen := by
  intro xs
  induction xs with
  | nil => intro seen a; simp [dedupAux]
  | cons x xs ih =>
    intro seen a
    by_cases hx : x ∈ seen
    · rw [dedupAux, if_pos hx, ih]
      constructor
      · rintro ⟨h1, h2⟩
        exact ⟨List.mem_cons_of_mem _ h1, h2⟩
      · rintro ⟨h1, h2⟩
        rcases List.mem_cons.mp h1 with h | h
        · subst h; exact absurd hx h2
        · exact ⟨h, h2⟩
    · rw [dedupAux, if_neg hx]
      constructor
      · intro h
        rcases List.mem_cons.mp h with h | h
        · subst h; exact ⟨List.mem_cons_self _ _, hx⟩
        · rcases (ih _ _).mp h with ⟨h1, h2⟩
          refine ⟨List.mem_cons_of_mem _ h1, fun hc => h2 (List.mem_cons_of_mem _ hc)⟩
      · rintro ⟨h1, h2⟩
        rcases List.mem_cons.mp h1 with h | h
        · subst h; exact List.mem_cons_self _ _
        · by_cases hax : a = x
          · subst hax; exact List.mem_cons_self _ _
          · exact List.mem_cons_of_mem _ ((ih _ _).mpr ⟨h, by
              intro hc
              rcases List.mem_cons.mp hc with h3 | h3
              · exact hax h3
              · exact h2 h3⟩)

/-- Output of dedupAux has no duplicate rows. -/
theorem nodup_dedupAux : ∀ (xs seen : List Int), (dedupAux xs seen).Nodup := by
  intro xs
  induction xs with
  | nil => intro seen; simp [dedupAux]
  | cons x xs ih =>
    intro seen
    by_cases hx : x ∈ seen
    · rw [dedupAux, if_pos hx]; exact ih seen
    · rw [dedupAux, if_neg hx]
      refine List.nodup_cons.mpr ⟨fun hc => ?_, ih _⟩
      exact ((mem_dedupAux _ _ _).mp hc).2 (List.mem_cons_self _ _)

/-- Re-deduplicating an already deduplicated prefix is a no-op, for any
shared accumulator. -/
theorem dedupAux_dedupAux_append : ∀ (s seen r : List Int),
    dedupAux (dedupAux s seen ++ r) seen = dedupAux (s ++ r) seen := by
  intro s
  induction s with
  | nil => intro seen r; rfl
  | cons x s ih =>
    intro seen r
    by_cases hx : x ∈ seen
    · rw [dedupAux, if_pos hx, List.cons_append, dedupAux, if_pos hx, ih]
    · rw [dedupAux, if_neg hx, List.cons_append, List.cons_append, dedupAux, if_neg hx,
        dedupAux, if_neg hx, ih]

/-- Deduplicated id lists have no duplicates. -/
theorem nodup_dedupById (xs : List Int) : (dedupById xs).Nodup := nodup_dedupAux xs []

/-- Deduplication preserves the set of ids. -/
theorem mem_dedupById (xs : List Int) (a : Int) : a ∈ dedupById xs ↔ a ∈ xs := by
  rw [dedupById, mem_dedupAux]; simp

/-- Deduplicating after appending to an already deduplicated list equals
deduplicating the raw concatenation: iterated drop_duplicates over
concatenations equals one drop_duplicates over everything seen. -/
theorem dedupById_idem_append (s r : List Int) :
    dedupById (dedupById s ++ r) = dedupById (s ++ r) :=
  dedupAux_dedupAux_append s [] r

/-- Tile list membership is decided by the id field alone. -/
theorem tileMem_iff (t : Tile) (ts : List Tile) :
    tileMem t ts = true ↔ t.id ∈ ts.map Tile.id := by
  simp [tileMem, List.any_eq_true, List.mem_map, beq_iff_eq]

/-- Negative tile membership means the id occurs nowhere in the list. -/
theorem tileMem_false (t : Tile) (ts : List Tile) :
    tileMem t ts = false ↔ t.id ∉ ts.map Tile.id := by
  rw [← tileMem_iff]
  cases h : tileMem t ts <;> simp

/-- addNewTiles only ever appends at the end of the existing work list. -/
theorem addNewTiles_suffix : ∀ (ts tiles : List Tile),
    ∃ ex, addNewTiles tiles ts = tiles ++ ex := by
  intro ts
  induction ts with
  | nil => intro tiles; exact ⟨[], by simp [addNewTiles]⟩
  | cons t ts ih =>
    intro tiles
    rw [addNewTiles]
    by_cases h : tileMem t tiles = true
    · rw [if_pos h]; exact ih tiles
    · rw [if_neg h]
      obtain ⟨ex, hex⟩ := ih (tiles ++ [t])
      exact ⟨t :: ex, by rw [hex]; simp⟩

/-- addNewTiles preserves distinctness of the tile ids in the work list. -/
theorem addNewTiles_nodup : ∀ (ts tiles : List Tile),
    (tiles.map Tile.id).Nodup → ((addNewTiles tiles ts).map Tile.id).Nodup := by
  intro ts
  induction ts with
  | nil => intro tiles h; simpa [addNewTiles] using h
  | cons t ts ih =>
    intro tiles h
    rw [addNewTiles]
    by_cases hm : tileMem t tiles = true
    · rw [if_pos hm]; exact ih tiles h
    · rw [if_neg hm]
      refine ih (tiles ++ [t]) ?_
      rw [List.map_append]
      simp only [List.map_cons, List.map_nil]
      rw [List.nodup_append]
      refine ⟨h, List.nodup_singleton _, ?_⟩
      intro a ha hb
      simp only [List.mem_singleton] at hb
      subst hb
      exact ((tileMem_false t tiles).mp (by simpa using hm)) ha

/-- A tile in the output of addNewTiles either was already in the work
list, or comes from the response and its id was absent from the work
list: tiles are enqueued only when previously unseen. -/
theorem addNewTiles_mem : ∀ (ts tiles : List Tile) (u : Tile),
    u ∈ addNewTiles tiles ts → u ∈ tiles ∨ (u ∈ ts ∧ u.id ∉ tiles.map Tile.id) := by
  intro ts
  induction ts with
  | nil => intro tiles u h; left; simpa [addNewTiles] using h
  | cons t ts ih =>
    intro tiles u h
    rw [addNewTiles] at h
    by_cases hm : tileMem t tiles = true
    · rw [if_pos hm] at h
      rcases ih tiles u h with h1 | ⟨h1, h2⟩
      · exact Or.inl h1
      · exact Or.inr ⟨List.mem_cons_of_mem _ h1, h2⟩
    · rw [if_neg hm] at h
      rcases ih (tiles ++ [t]) u h with h1 | ⟨h1, h2⟩
      · rcases List.mem_append.mp h1 with h3 | h3
        · exact Or.inl h3
        · simp only [List.mem_singleton] at h3
          subst h3
          exact Or.inr ⟨List.mem_cons_self _ _, (tileMem_false u tiles).mp (by simpa using hm)⟩
      · refine Or.inr ⟨List.mem_cons_of_mem _ h1, fun hc => h2 ?_⟩
        rw [List.map_append]
        exact List.mem_append_left _ hc

theorem fetch_pf_pos (oracle : Oracle) (q pf pt : Nat) (lat lon : Int) (fuel : Nat)
    (hpf : pf ≠ 0) :
    fetch_properties oracle q pf pt lat lon (fuel + 1) = some ⟨initResult, q, [], []⟩ := by
  rw [fetch_properties]
  simp [fetchLoop, hpf]

theorem fetch_pf_pos_of_some (oracle : Oracle) (q pf pt : Nat) (lat lon : Int) (fuel : Nat)
    (out : FetchOut) (hpf : pf ≠ 0)
    (h : fetch_properties oracle q pf pt lat lon fuel = some out) :
    out = ⟨initResult, q, [], []⟩ := by
  cases fuel with
  | zero => simp [fetch_properties, fetchLoop] at h
  | succ fuel =>
    rw [fetch_pf_pos oracle q pf pt lat lon fuel hpf] at h
    exact (Option.some.inj h).symm

theorem fetchLoop_error_step (oracle : Oracle) (pt : Nat) (tiles : List Tile) (i : Nat)
    (allDf : List Int) (tf : Nat) (isF : Bool) (q : Nat) (qd : List Tile) (sn : List Int)
    (fuel : Nat) (h : i < tiles.length) (he : oracle q = Except.error ()) :
    fetchLoop oracle 0 pt (fuel + 1) tiles i allDf tf isF q qd sn =
      some ⟨initResult, q + 1, qd ++ [tiles.get ⟨i, h⟩], sn⟩ := by
  simp [fetchLoop, h, he]

theorem fetchLoop_reach_step (oracle : Oracle) (pt : Nat) (tiles : List Tile) (i : Nat)
    (allDf : List Int) (tf : Nat) (q : Nat) (qd : List Tile) (sn : List Int)
    (fuel : Nat) (resp : MLXAPIResponse) (h : i < tiles.length)
    (ho : oracle q = Except.ok resp)
    (hreach : tf ≤ (dedupById (allDf ++ resp.records)).length) :
    fetchLoop oracle 0 pt (fuel + 1) tiles i allDf tf false q qd sn =
      some ⟨⟨(dedupById (allDf ++ resp.records)).length, dedupById (allDf ++ resp.records),
        (dedupById (allDf ++ resp.records)).length == tf⟩, q + 1,
        qd ++ [tiles.get ⟨i, h⟩], sn ++ resp.records⟩ := by
  simp [fetchLoop, h, ho, hreach]

theorem fetchLoop_exit (oracle : Oracle) (pf pt : Nat) (tiles : List Tile) (i : Nat)
    (allDf : List Int) (tf : Nat) (isF : Bool) (q : Nat) (qd : List Tile) (sn : List Int)
    (fuel : Nat) (h : ¬ i < tiles.length) :
    fetchLoop oracle pf pt (fuel + 1) tiles i allDf tf isF q qd sn =
      some ⟨⟨allDf.length, allDf, allDf.length == tf⟩, q, qd, sn⟩ := by
  simp [fetchLoop, h]

theorem fetchLoop_ok_step_notfirst (oracle : Oracle) (pt : Nat) (tiles : List Tile)
    (i : Nat) (allDf : List Int) (tf : Nat) (q : Nat) (qd : List Tile) (sn : List Int)
    (fuel : Nat) (resp : MLXAPIResponse) (h : i < tiles.length)
    (ho : oracle q = Except.ok resp) :
    fetchLoop oracle 0 pt (fuel + 1) tiles i allDf tf false q qd sn =
      (if tf ≤ (dedupById (allDf ++ resp.records)).length then
        some ⟨⟨(dedupById (allDf ++ resp.records)).length, dedupById (allDf ++ resp.records),
          (dedupById (allDf ++ resp.records)).length == tf⟩, q + 1,
          qd ++ [tiles.get ⟨i, h⟩], sn ++ resp.records⟩
      else
        fetchLoop oracle 0 pt fuel (addNewTiles tiles resp.tiles) (i + 1)
          (dedupById (allDf ++ resp.records)) tf false (q + 1)
          (qd ++ [tiles.get ⟨i, h⟩]) (sn ++ resp.records)) := by
  simp [fetchLoop, h, ho]

theorem fetchLoop_ok_step_first (oracle : Oracle) (pt : Nat) (tiles : List Tile)
    (i : Nat) (allDf : List Int) (tf : Nat) (q : Nat) (qd : List Tile) (sn : List Int)
    (fuel : Nat) (resp : MLXAPIResponse) (h : i < tiles.length)
    (ho : oracle q = Except.ok resp) :
    fetchLoop oracle 0 pt (fuel + 1) tiles i allDf tf true q qd sn =
      (if resp.total_found = 0 then
        some ⟨initResult, q + 1, qd ++ [tiles.get ⟨i, h⟩], sn⟩
      else if resp.total_found ≤ (dedupById (allDf ++ resp.records)).length then
        some ⟨⟨(dedupById (allDf ++ resp.records)).length, dedupById (allDf ++ resp.records),
          (dedupById (allDf ++ resp.records)).length == resp.total_found⟩, q + 1,
          qd ++ [tiles.get ⟨i, h⟩], sn ++ resp.records⟩
      else
        fetchLoop oracle 0 pt fuel (addNewTiles tiles resp.tiles) (i + 1)
          (dedupById (allDf ++ resp.records)) resp.total_found false (q + 1)
          (qd ++ [tiles.get ⟨i, h⟩]) (sn ++ resp.records)) := by
  by_cases h0 : resp.total_found = 0
  · simp [fetchLoop, h, ho, h0]
  · simp [fetchLoop, h, ho, h0]
theorem fetchLoop_found_all (oracle : Oracle) (pt : Nat)
    (hok : ∀ k, ∃ r, oracle k = Except.ok r) :
    ∀ (fuel : Nat) (tiles : List Tile) (i : Nat) (allDf : List Int) (tf q : Nat)
      (qd : List Tile) (sn : List Int) (out : FetchOut),
      fetchLoop oracle 0 pt fuel tiles i allDf tf false q qd sn = some out →
      out.res.found_all = (out.res.count == tf) := by
  intro fuel
  induction fuel with
  | zero =>
    intro tiles i allDf tf q qd sn out h
    simp [fetchLoop] at h
  | succ fuel ih =>
    intro tiles i allDf tf q qd sn out h
    by_cases hi : i < tiles.length
    · obtain ⟨r, hr⟩ := hok q
      rw [fetchLoop_ok_step_notfirst oracle pt tiles i allDf tf q qd sn fuel r hi hr] at h
      by_cases hre : tf ≤ (dedupById (allDf ++ r.records)).length
      · rw [if_pos hre] at h
        cases Option.some.inj h
        rfl
      · rw [if_neg hre] at h
        exact ih _ _ _ _ _ _ _ _ h
    · rw [fetchLoop_exit oracle 0 pt tiles i allDf tf false q qd sn fuel hi] at h
      cases Option.some.inj h
      rfl

theorem fetch_found_all (oracle : Oracle) (pt q : Nat) (lat lon : Int) (fuel : Nat)
    (resp : MLXAPIResponse) (out : FetchOut)
    (hok : ∀ k, ∃ r, oracle k = Except.ok r)
    (hq : oracle q = Except.ok resp)
    (h : fetch_properties oracle q 0 pt lat lon fuel = some out) :
    out.res.found_all = (out.res.count == resp.total_found) := by
  cases fuel with
  | zero => simp [fetch_properties, fetchLoop] at h
  | succ fuel =>
    rw [fetch_properties] at h
    rw [fetchLoop_ok_step_first oracle pt _ 0 [] 0 q [] [] fuel resp (by simp) hq] at h
    by_cases h0 : resp.total_found = 0
    · rw [if_pos h0] at h
      cases Option.some.inj h
      simp [initResult, h0]
    · rw [if_neg h0] at h
      by_cases hre : resp.total_found ≤ (dedupById ([] ++ resp.records)).length
      · rw [if_pos hre] at h
        cases Option.some.inj h
        rfl
      · rw [if_neg hre] at h
        exact fetchLoop_found_all oracle pt hok _ _ _ _ _ _ _ _ _ h
theorem fetchLoop_pf_step (oracle : Oracle) (pf pt : Nat) (tiles : List Tile) (i : Nat)
    (allDf : List Int) (tf : Nat) (isF : Bool) (q : Nat) (qd : List Tile) (sn : List Int)
    (fuel : Nat) (h : i < tiles.length) (hpf : ¬ pf = 0) :
    fetchLoop oracle pf pt (fuel + 1) tiles i allDf tf isF q qd sn =
      some ⟨initResult, q, qd, sn⟩ := by
  simp [fetchLoop, h, hpf]

theorem fetchLoop_df_nodup (oracle : Oracle) (pf pt : Nat) :
    ∀ (fuel : Nat) (tiles : List Tile) (i : Nat) (allDf : List Int) (tf : Nat)
      (isF : Bool) (q : Nat) (qd : List Tile) (sn : List Int) (out : FetchOut),
      allDf.Nodup →
      fetchLoop oracle pf pt fuel tiles i allDf tf isF q qd sn = some out →
      out.res.df.Nodup ∧ out.res.count = out.res.df.length := by
  intro fuel
  induction fuel with
  | zero =>
    intro tiles i allDf tf isF q qd sn out hnd h
    simp [fetchLoop] at h
  | succ fuel ih =>
    intro tiles i allDf tf isF q qd sn out hnd h
    by_cases hi : i < tiles.length
    · by_cases hpf : pf = 0
      · subst hpf
        cases ho : oracle q with
        | error e =>
          cases e
          rw [fetchLoop_error_step oracle pt tiles i allDf tf isF q qd sn fuel hi ho] at h
          cases Option.some.inj h
          exact ⟨List.nodup_nil, rfl⟩
        | ok r =>
          cases isF with
          | true =>
            rw [fetchLoop_ok_step_first oracle pt tiles i allDf tf q qd sn fuel r hi ho] at h
            by_cases h0 : r.total_found = 0
            · rw [if_pos h0] at h
              cases Option.some.inj h
              exact ⟨List.nodup_nil, rfl⟩
            · rw [if_neg h0] at h
              by_cases hre : r.total_found ≤ (dedupById (allDf ++ r.records)).length
              · rw [if_pos hre] at h
                cases Option.some.inj h
                exact ⟨nodup_dedupById _, rfl⟩
              · rw [if_neg hre] at h
                exact ih _ _ _ _ _ _ _ _ _ (nodup_dedupById _) h
          | false =>
            rw [fetchLoop_ok_step_notfirst oracle pt tiles i allDf tf q qd sn fuel r hi ho] at h
            by_cases hre : tf ≤ (dedupById (allDf ++ r.records)).length
            · rw [if_pos hre] at h
              cases Option.some.inj h
              exact ⟨nodup_dedupById _, rfl⟩
            · rw [if_neg hre] at h
              exact ih _ _ _ _ _ _ _ _ _ (nodup_dedupById _) h
      · rw [fetchLoop_pf_step oracle pf pt tiles i allDf tf isF q qd sn fuel hi hpf] at h
        cases Option.some.inj h
        exact ⟨List.nodup_nil, rfl⟩
    · rw [fetchLoop_exit oracle pf pt tiles i allDf tf isF q qd sn fuel hi] at h
      cases Option.some.inj h
      exact ⟨hnd, rfl⟩

theorem fetch_df_nodup (oracle : Oracle) (q pf pt : Nat) (lat lon : Int) (fuel : Nat)
    (out : FetchOut)
    (h : fetch_properties oracle q pf pt lat lon fuel = some out) :
    out.res.df.Nodup ∧ out.res.count = out.res.df.length :=
  fetchLoop_df_nodup oracle pf pt fuel _ 0 [] 0 true q [] [] out List.nodup_nil h

theorem fetchLoop_df_seen (oracle : Oracle) (pt : Nat)
    (hok : ∀ k, ∃ r, oracle k = Except.ok r) :
    ∀ (fuel : Nat) (tiles : List Tile) (i : Nat) (allDf : List Int) (tf q : Nat)
      (qd : List Tile) (sn : List Int) (out : FetchOut),
      allDf = dedupById sn →
      fetchLoop oracle 0 pt fuel tiles i allDf tf false q qd sn = some out →
      out.res.df = dedupById out.seen := by
  intro fuel
  induction fuel with
  | zero =>
    intro tiles i allDf tf q qd sn out hinv h
    simp [fetchLoop] at h
  | succ fuel ih =>
    intro tiles i allDf tf q qd sn out hinv h
    by_cases hi : i < tiles.length
    · obtain ⟨r, hr⟩ := hok q
      rw [fetchLoop_ok_step_notfirst oracle pt tiles i allDf tf q qd sn fuel r hi hr] at h
      by_cases hre : tf ≤ (dedupById (allDf ++ r.records)).length
      · rw [if_pos hre] at h
        cases Option.some.inj h
        subst hinv
        exact (dedupById_idem_append sn r.records).symm ▸ rfl
      · rw [if_neg hre] at h
        refine ih _ _ _ _ _ _ _ _ ?_ h
        subst hinv
        exact dedupById_idem_append sn r.records
    · rw [fetchLoop_exit oracle 0 pt tiles i allDf tf false q qd sn fuel hi] at h
      cases Option.some.inj h
      exact hinv
theorem fetch_df_seen (oracle : Oracle) (pt q : Nat) (lat lon : Int) (fuel : Nat)
    (out : FetchOut)
    (hok : ∀ k, ∃ r, oracle k = Except.ok r)
    (h : fetch_properties oracle q 0 pt lat lon fuel = some out) :
    out.res.df = dedupById out.seen := by
  cases fuel with
  | zero => simp [fetch_properties, fetchLoop] at h
  | succ fuel =>
    obtain ⟨r, hr⟩ := hok q
    rw [fetch_properties] at h
    rw [fetchLoop_ok_step_first oracle pt _ 0 [] 0 q [] [] fuel r (by simp) hr] at h
    by_cases h0 : r.total_found = 0
    · rw [if_pos h0] at h
      cases Option.some.inj h
      rfl
    · rw [if_neg h0] at h
      by_cases hre : r.total_found ≤ (dedupById ([] ++ r.records)).length
      · rw [if_pos hre] at h
        cases Option.some.inj h
        simp
      · rw [if_neg hre] at h
        refine fetchLoop_df_seen oracle pt hok _ _ _ _ _ _ _ _ _ ?_ h
        simp

theorem nodup_map_take (tiles : List Tile) (n : Nat)
    (h : (tiles.map Tile.id).Nodup) : ((tiles.take n).map Tile.id).Nodup := by
  rw [List.map_take]
  exact h.sublist (List.take_sublist _ _)

theorem take_concat_get (tiles : List Tile) (i : Nat) (h : i < tiles.length) :
    tiles.take i ++ [tiles.get ⟨i, h⟩] = tiles.take (i + 1) := by
  rw [List.take_succ]
  rw [List.getElem?_eq_getElem h]
  rfl

theorem fetchLoop_queried_nodup (oracle : Oracle) (pf pt : Nat) :
    ∀ (fuel : Nat) (tiles : List Tile) (i : Nat) (allDf : List Int) (tf : Nat)
      (isF : Bool) (q : Nat) (qd : List Tile) (sn : List Int) (out : FetchOut),
      qd = tiles.take i →
      (tiles.map Tile.id).Nodup →
      fetchLoop oracle pf pt fuel tiles i allDf tf isF q qd sn = some out →
      (out.queried.map Tile.id).Nodup := by
  intro fuel
  induction fuel with
  | zero =>
    intro tiles i allDf tf isF q qd sn out hq hnd h
    simp [fetchLoop] at h
  | succ fuel ih =>
    intro tiles i allDf tf isF q qd sn out hq hnd h
    by_cases hi : i < tiles.length
    · by_cases hpf : pf = 0
      · subst hpf
        cases ho : oracle q with
        | error e =>
          cases e
          rw [fetchLoop_error_step oracle pt tiles i allDf tf isF q qd sn fuel hi ho] at h
          cases Option.some.inj h
          subst hq
          rw [take_concat_get tiles i hi]
          exact nodup_map_take tiles (i + 1) hnd
        | ok r =>
          have hstep : qd ++ [tiles.get ⟨i, hi⟩] = tiles.take (i + 1) := by
            subst hq
            exact take_concat_get tiles i hi
          have hstep2 : ∀ ex : List Tile,
              qd ++ [tiles.get ⟨i, hi⟩] = (tiles ++ ex).take (i + 1) := by
            intro ex
            rw [hstep, List.take_append_of_le_length (by omega)]
          cases isF with
          | true =>
            rw [fetchLoop_ok_step_first oracle pt tiles i allDf tf q qd sn fuel r hi ho] at h
            by_cases h0 : r.total_found = 0
            · rw [if_pos h0] at h
              cases Option.some.inj h
              rw [hstep]
              exact nodup_map_take tiles (i + 1) hnd
            · rw [if_neg h0] at h
              by_cases hre : r.total_found ≤ (dedupById (allDf ++ r.records)).length
              · rw [if_pos hre] at h
                cases Option.some.inj h
                rw [hstep]
                exact nodup_map_take tiles (i + 1) hnd
              · rw [if_neg hre] at h
                obtain ⟨ex, hex⟩ := addNewTiles_suffix r.tiles tiles
                refine ih _ _ _ _ _ _ _ _ _ ?_ (addNewTiles_nodup _ _ hnd) h
                rw [hex]
                exact hstep2 ex
          | false =>
            rw [fetchLoop_ok_step_notfirst oracle pt tiles i allDf tf q qd sn fuel r hi ho] at h
            by_cases hre : tf ≤ (dedupById (allDf ++ r.records)).length
            · rw [if_pos hre] at h
              cases Option.some.inj h
              rw [hstep]
              exact nodup_map_take tiles (i + 1) hnd
            · rw [if_neg hre] at h
              obtain ⟨ex, hex⟩ := addNewTiles_suffix r.tiles tiles
              refine ih _ _ _ _ _ _ _ _ _ ?_ (addNewTiles_nodup _ _ hnd) h
              rw [hex]
              exact hstep2 ex
      · rw [fetchLoop_pf_step oracle pf pt tiles i allDf tf isF q qd sn fuel hi hpf] at h
        cases Option.some.inj h
        subst hq
        exact nodup_map_take tiles i hnd
    · rw [fetchLoop_exit oracle pf pt tiles i allDf tf isF q qd sn fuel hi] at h
      cases Option.some.inj h
      subst hq
      exact nodup_map_take tiles i hnd

theorem fetch_queried_nodup (oracle : Oracle) (q pf pt : Nat) (lat lon : Int)
    (fuel : Nat) (out : FetchOut)
    (h : fetch_properties oracle q pf pt lat lon fuel = some out) :
    (out.queried.map Tile.id).Nodup := by
  refine fetchLoop_queried_nodup oracle pf pt fuel _ 0 [] 0 true q [] [] out rfl ?_ h
  simp
theorem pyRange_pos (a b s : Nat) (ha : 0 < a) : ∀ p ∈ pyRange a b s, 0 < p := by
  intro p hp
  rw [pyRange] at hp
  obtain ⟨i, hi, rfl⟩ := List.mem_range'.mp hp
  exact Nat.lt_of_lt_of_le ha (Nat.le_add_right a _)

theorem bpAux_pos_of_some (oracle : Oracle) (lat lon : Int) (count fuel : Nat) :
    ∀ (gas step : Nat) (prices : List Nat) (allDf : List Int) (q : Nat)
      (s : List Int × Nat),
      (∀ p ∈ prices, 0 < p) →
      bpAux oracle lat lon count fuel gas step prices allDf q = some s →
      s = (allDf, q) := by
  intro gas
  induction gas with
  | zero =>
    intro step prices allDf q s hp h
    simp [bpAux] at h
  | succ gas ih =>
    intro step prices allDf q s hp h
    cases prices with
    | nil =>
      simp only [bpAux] at h
      exact (Option.some.inj h).symm
    | cons p rest =>
      simp only [bpAux] at h
      cases hf : fetch_properties oracle q p (p + step) lat lon fuel with
      | none => rw [hf] at h; simp at h
      | some out =>
        rw [hf] at h
        have hne : p ≠ 0 := Nat.pos_iff_ne_zero.mp (hp p (List.mem_cons_self _ _))
        have hout := fetch_pf_pos_of_some oracle q p (p + step) lat lon fuel out hne hf
        subst hout
        exact ih step rest allDf q s (fun x hx => hp x (List.mem_cons_of_mem _ hx)) h

theorem bpAux_pos_total (oracle : Oracle) (lat lon : Int) (count fuel : Nat)
    (hfuel : 1 ≤ fuel) :
    ∀ (prices : List Nat) (gas step : Nat) (allDf : List Int) (q : Nat),
      (∀ p ∈ prices, 0 < p) →
      prices.length < gas →
      bpAux oracle lat lon count fuel gas step prices allDf q = some (allDf, q) := by
  intro prices
  induction prices with
  | nil =>
    intro gas step allDf q hp hgas
    obtain ⟨g, rfl⟩ : ∃ g, gas = g + 1 := ⟨gas - 1, by omega⟩
    simp [bpAux]
  | cons p rest ih =>
    intro gas step allDf q hp hgas
    obtain ⟨g, rfl⟩ : ∃ g, gas = g + 1 := ⟨gas - 1, by omega⟩
    obtain ⟨f, rfl⟩ : ∃ f, fuel = f + 1 := ⟨fuel - 1, by omega⟩
    simp only [bpAux]
    have hne : p ≠ 0 := Nat.pos_iff_ne_zero.mp (hp p (List.mem_cons_self _ _))
    rw [fetch_pf_pos oracle q p (p + step) lat lon f hne]
    exact ih g step allDf q (fun x hx => hp x (List.mem_cons_of_mem _ hx))
      (by simp at hgas; omega)

theorem by_prices_pos_of_some (oracle : Oracle) (lat lon : Int)
    (count fuel gas pf pt step q : Nat) (r : FetchResult) (q2 : Nat)
    (hpf : 0 < pf)
    (h : fetch_properties_by_prices oracle lat lon count fuel gas pf pt step q =
      some (r, q2)) :
    r.df = [] ∧ r.count = 0 ∧ q2 = q := by
  rw [fetch_properties_by_prices] at h
  by_cases hs : step < MIN_PRICE_STEP
  · rw [if_pos hs] at h
    cases Option.some.inj h
    exact ⟨rfl, rfl, rfl⟩
  · rw [if_neg hs] at h
    cases hb : bpAux oracle lat lon count fuel gas step (pyRange pf pt step) [] q with
    | none => rw [hb] at h; simp at h
    | some s =>
      rw [hb] at h
      have hse := bpAux_pos_of_some oracle lat lon count fuel gas step
        (pyRange pf pt step) [] q s (pyRange_pos pf pt step hpf) hb
      subst hse
      cases Option.some.inj h
      exact ⟨rfl, rfl, rfl⟩

theorem by_prices_pos_eq (oracle : Oracle) (lat lon : Int)
    (count fuel gas pf pt step q : Nat)
    (hpf : 0 < pf) (hfuel : 1 ≤ fuel) (hstep : MIN_PRICE_STEP ≤ step)
    (hgas : (pyRange pf pt step).length < gas) :
    fetch_properties_by_prices oracle lat lon count fuel gas pf pt step q =
      some (⟨0, [], 0 == count⟩, q) := by
  rw [fetch_properties_by_prices, if_neg (by omega)]
  rw [bpAux_pos_total oracle lat lon count fuel hfuel (pyRange pf pt step) gas step [] q
    (pyRange_pos pf pt step hpf) hgas]
  rfl
theorem tiles_length_le_card (tiles : List Tile) (S2 : Finset Int)
    (hnd : (tiles.map Tile.id).Nodup) (hsub : ∀ t ∈ tiles, t.id ∈ S2) :
    tiles.length ≤ S2.card := by
  have h1 : (tiles.map Tile.id).toFinset.card = (tiles.map Tile.id).length :=
    List.toFinset_card_of_nodup hnd
  have h2 : (tiles.map Tile.id).toFinset ⊆ S2 := by
    intro a ha
    rw [List.mem_toFinset, List.mem_map] at ha
    obtain ⟨t, ht, rfl⟩ := ha
    exact hsub t ht
  calc tiles.length = (tiles.map Tile.id).length := (List.length_map _ _).symm
    _ = (tiles.map Tile.id).toFinset.card := h1.symm
    _ ≤ S2.card := Finset.card_le_card h2

theorem fetchLoop_isSome (oracle : Oracle) (pt : Nat) (S2 : Finset Int)
    (hS : ∀ k r, oracle k = Except.ok r → ∀ t ∈ r.tiles, t.id ∈ S2) :
    ∀ (fuel : Nat) (tiles : List Tile) (i : Nat) (allDf : List Int) (tf : Nat)
      (isF : Bool) (q : Nat) (qd : List Tile) (sn : List Int),
      (tiles.map Tile.id).Nodup →
      (∀ t ∈ tiles, t.id ∈ S2) →
      S2.card + 1 - i < fuel →
      (fetchLoop oracle 0 pt fuel tiles i allDf tf isF q qd sn).isSome := by
  intro fuel
  induction fuel with
  | zero =>
    intro tiles i allDf tf isF q qd sn hnd hsub hfuel
    omega
  | succ fuel ih =>
    intro tiles i allDf tf isF q qd sn hnd hsub hfuel
    by_cases hi : i < tiles.length
    · have hlen : tiles.length ≤ S2.card := tiles_length_le_card tiles S2 hnd hsub
      cases ho : oracle q with
      | error e =>
        cases e
        rw [fetchLoop_error_step oracle pt tiles i allDf tf isF q qd sn fuel hi ho]
        rfl
      | ok r =>
        have hsub2 : ∀ t ∈ addNewTiles tiles r.tiles, t.id ∈ S2 := by
          intro t ht
          rcases addNewTiles_mem r.tiles tiles t ht with h1 | ⟨h1, _⟩
          · exact hsub t h1
          · exact hS q r ho t h1
        have hnd2 := addNewTiles_nodup r.tiles tiles hnd
        have hfuel2 : S2.card + 1 - (i + 1) < fuel := by omega
        cases isF with
        | false =>
          rw [fetchLoop_ok_step_notfirst oracle pt tiles i allDf tf q qd sn fuel r hi ho]
          by_cases hre : tf ≤ (dedupById (allDf ++ r.records)).length
          · rw [if_pos hre]; rfl
          · rw [if_neg hre]
            exact ih _ _ _ _ _ _ _ _ hnd2 hsub2 hfuel2
        | true =>
          rw [fetchLoop_ok_step_first oracle pt tiles i allDf tf q qd sn fuel r hi ho]
          by_cases h0 : r.total_found = 0
          · rw [if_pos h0]; rfl
          · rw [if_neg h0]
            by_cases hre : r.total_found ≤ (dedupById (allDf ++ r.records)).length
            · rw [if_pos hre]; rfl
            · rw [if_neg hre]
              exact ih _ _ _ _ _ _ _ _ hnd2 hsub2 hfuel2
    · rw [fetchLoop_exit oracle 0 pt tiles i allDf tf isF q qd sn fuel hi]
      rfl

theorem fetch_isSome (oracle : Oracle) (pt q : Nat) (lat lon : Int) (S : Finset Int)
    (hS : ∀ k r, oracle k = Except.ok r → ∀ t ∈ r.tiles, t.id ∈ S) :
    (fetch_properties oracle q 0 pt lat lon ((S ∪ {0, 1}).card + 2)).isSome := by
  refine fetchLoop_isSome oracle pt (S ∪ {0, 1}) ?_ _ _ 0 [] 0 true q [] [] ?_ ?_ ?_
  · intro k r hk t ht
    exact Finset.mem_union_left _ (hS k r hk t ht)
  · simp
  · intro t ht
    simp only [List.mem_cons, List.not_mem_nil, or_false] at ht
    rcases ht with rfl | rfl
    · apply Finset.mem_union_right
      simp
    · apply Finset.mem_union_right
      simp
  · omega
/-- Adversarial response stream for the termination claim: every query
reports two matches, returns the single record id 1 and one tile whose id
has never been seen before. -/
def advOracle : Oracle := fun k => Except.ok ⟨2, [1], [⟨0, 0, 1, (k : Int) + 3, 0⟩]⟩

theorem advLoop_none :
    ∀ (fuel i : Nat) (tiles qd : List Tile) (sn : List Int),
      tiles.length = i + 2 →
      (∀ t ∈ tiles, t.id < (i : Int) + 3) →
      fetchLoop advOracle 0 0 fuel tiles i [1] 2 false i qd sn = none := by
  intro fuel
  induction fuel with
  | zero =>
    intro i tiles qd sn hlen hids
    rfl
  | succ fuel ih =>
    intro i tiles qd sn hlen hids
    have hi : i < tiles.length := by omega
    have hadv : advOracle i = Except.ok ⟨2, [1], [⟨0, 0, 1, (i : Int) + 3, 0⟩]⟩ := rfl
    rw [fetchLoop_ok_step_notfirst advOracle 0 tiles i [1] 2 i qd sn fuel _ hi hadv]
    rw [if_neg (by norm_num [dedupById, dedupAux])]
    have hmem : tileMem ⟨0, 0, 1, (i : Int) + 3, 0⟩ tiles = false := by
      rw [tileMem_false]
      intro hc
      rw [List.mem_map] at hc
      obtain ⟨t, ht, hid⟩ := hc
      have hid2 : t.id = (i : Int) + 3 := hid
      have := hids t ht
      omega
    have haddt : addNewTiles tiles [⟨0, 0, 1, (i : Int) + 3, 0⟩] =
        tiles ++ [⟨0, 0, 1, (i : Int) + 3, 0⟩] := by
      rw [addNewTiles, if_neg (by simp [hmem]), addNewTiles]
    have hded : dedupById ([1] ++ [1]) = [1] := rfl
    show fetchLoop advOracle 0 0 fuel (addNewTiles tiles [⟨0, 0, 1, (i : Int) + 3, 0⟩])
      (i + 1) (dedupById ([1] ++ [1])) 2 false (i + 1) (qd ++ [tiles.get ⟨i, hi⟩])
      (sn ++ [1]) = none
    rw [haddt, hded]
    refine ih (i + 1) _ _ _ ?_ ?_
    · simp
      omega
    · intro t ht
      rcases List.mem_append.mp ht with h1 | h1
      · have := hids t h1
        push_cast
        omega
      · rcases List.mem_singleton.mp h1 with rfl
        push_cast
        omega
/-- C7 (confirmed): a window whose first (sentinel, no bounding box) query
reports total_found = 0 resolves to the pre-initialised result with count
0, empty record set and found_all = true, and exactly one remote search
call is issued: the next oracle index is q + 1 and the queried trace holds
only the sentinel tile. -/
theorem c7_empty_window (oracle : Oracle) (q pt : Nat) (lat lon : Int) (fuel : Nat)
    (resp : MLXAPIResponse) (h1 : oracle q = Except.ok resp)
    (h2 : resp.total_found = 0) :
    fetch_properties oracle q 0 pt lat lon (fuel + 1) =
      some ⟨initResult, q + 1, [⟨0, 0, 0, 0, 0⟩], []⟩ := by
  rw [fetch_properties]
  rw [fetchLoop_ok_step_first oracle pt _ 0 [] 0 q [] [] fuel resp (by simp) h1]
  rw [if_pos h2]
  rfl

/-- Witness oracle for C7: an authentically empty window. -/
def c7Oracle : Oracle := fun _ => Except.ok ⟨0, [], []⟩

/-- C7 witness: concrete empty window resolved in one call. -/
theorem c7_empty_window_witness :
    fetch_properties c7Oracle 5 0 0 3 4 1 =
      some ⟨initResult, 6, [⟨0, 0, 0, 0, 0⟩], []⟩ :=
  c7_empty_window c7Oracle 5 0 3 4 0 ⟨0, [], []⟩ rfl rfl

/-- C10 (confirmed): when the very first query of a window raises (here: a
transport error), the try/except of fetch_properties catches it and returns
the pre-initialised result {count 0, empty df, found_all true} — the very
same FetchOut.res value an authentically empty window produces, so the
caller cannot distinguish a failed window from an empty complete one. -/
theorem c10_exception_returns_init (oracle : Oracle) (q pt : Nat) (lat lon : Int)
    (fuel : Nat) (he : oracle q = Except.error ()) :
    fetch_properties oracle q 0 pt lat lon (fuel + 1) =
      some ⟨initResult, q + 1, [⟨0, 0, 0, 0, 0⟩], []⟩ := by
  rw [fetch_properties]
  exact fetchLoop_error_step oracle pt _ 0 [] 0 true q [] [] fuel (by simp) he

/-- Witness oracle for C10: every request fails. -/
def c10Oracle : Oracle := fun _ => Except.error ()

/-- C10 witness: concrete failing window returns the empty complete result. -/
theorem c10_exception_returns_init_witness :
    fetch_properties c10Oracle 0 0 0 0 0 1 =
      some ⟨initResult, 1, [⟨0, 0, 0, 0, 0⟩], []⟩ :=
  c10_exception_returns_init c10Oracle 0 0 0 0 0 rfl

/-- Oracle for the C4 counterexample; never actually consulted. -/
def c4Oracle : Oracle := fun _ => Except.ok ⟨0, [], []⟩

/-- C4 counterexample: with price_step 100 (below MIN_PRICE_STEP = 1000)
fetch_properties_by_prices returns the pre-initialised result whose
found_all field is TRUE, while the claim requires complete = false at the
recursion floor. -/
theorem c4_counterexample :
    fetch_properties_by_prices c4Oracle 0 0 5 10 10 100000 200000 100 0 =
      some (⟨0, [], true⟩, 0) ∧ 100 < MIN_PRICE_STEP :=
  ⟨rfl, by decide⟩

/-- C4 (corrected): at the recursion floor the function returns the result
dictionary exactly as initialised — count 0, empty records and found_all
TRUE, not false — immediately, with no further recursion and no queries
(the oracle index q is returned unchanged). -/
theorem c4_amended_floor (oracle : Oracle) (lat lon : Int)
    (count fuel gas pf pt step q : Nat) (hs : step < MIN_PRICE_STEP) :
    fetch_properties_by_prices oracle lat lon count fuel gas pf pt step q =
      some (initResult, q) := by
  rw [fetch_properties_by_prices, if_pos hs]

/-- C4 witness: the floor return at a second concrete input. -/
theorem c4_amended_floor_witness :
    5 < MIN_PRICE_STEP ∧
    fetch_properties_by_prices c4Oracle 0 0 9 1 1 50 60 5 3 = some (initResult, 3) :=
  ⟨by decide, c4_amended_floor c4Oracle 0 0 9 1 1 50 60 5 3 (by decide)⟩
/-- Oracle for the C5 counterexample: the first response advertises a tile
with nonzero count 12 and id 7; the query made while processing that tile
comes back empty (totalFound 0, no records); any further query would
return the record id 9. -/
def c5Oracle : Oracle
  | 0 => Except.ok ⟨3, [1], [⟨2, 3, 12, 7, 0⟩]⟩
  | 1 => Except.ok ⟨3, [], []⟩
  | 2 => Except.ok ⟨0, [], []⟩
  | _ => Except.ok ⟨3, [9], []⟩

/-- C5 counterexample: the query for the advertised tile (count 12, id 7,
oracle index 2) returns empty, yet the run ends after exactly three oracle
consultations — one per tile, with no recentered retry at radius 0.03 (a
retry would have consumed oracle index 3 and recovered record 9).  The
final queried trace contains tile id 7 exactly once and the result is the
partial aggregate with count 1 and found_all false. -/
theorem c5_counterexample :
    c5Oracle 2 = Except.ok ⟨0, [], []⟩ ∧
    fetch_properties c5Oracle 0 0 0 5 6 10 =
      some ⟨⟨1, [1], false⟩, 3, [⟨0, 0, 0, 0, 0⟩, ⟨5, 6, 0, 1, 0⟩, ⟨2, 3, 12, 7, 0⟩], [1]⟩ :=
  ⟨rfl, rfl⟩

/-- C5 (corrected): the code performs no stale-tile retry.  A non-first
tile query that returns an empty response (totalFound 0, no records) for a
tile with nonzero advisory count merges nothing, enqueues nothing, issues
no additional query (the oracle index advances by exactly the one
consultation for the tile itself), and the loop simply proceeds to the
next tile with the aggregate unchanged. -/
theorem c5_amended_no_retry (oracle : Oracle) (pt : Nat) (tiles : List Tile) (i : Nat)
    (allDf : List Int) (tf q : Nat) (qd : List Tile) (sn : List Int) (fuel : Nat)
    (h : i < tiles.length) (hcnt : (tiles.get ⟨i, h⟩).count ≠ 0)
    (ho : oracle q = Except.ok ⟨0, [], []⟩)
    (hd : dedupById allDf = allDf) (hlt : allDf.length < tf) :
    fetchLoop oracle 0 pt (fuel + 1) tiles i allDf tf false q qd sn =
      fetchLoop oracle 0 pt fuel tiles (i + 1) allDf tf false (q + 1)
        (qd ++ [tiles.get ⟨i, h⟩]) sn := by
  simp [fetchLoop, h, ho, List.append_nil, hd, addNewTiles, not_le.mpr hlt]

/-- Witness oracle for the amended C5 step. -/
def c5wOracle : Oracle := fun _ => Except.ok ⟨0, [], []⟩

/-- C5 witness: concrete empty-tile step advancing to the next tile. -/
theorem c5_amended_no_retry_witness :
    fetchLoop c5wOracle 0 0 4 [⟨1, 1, 3, 5, 0⟩] 0 [2] 2 false 0 [] [2] =
      fetchLoop c5wOracle 0 0 3 [⟨1, 1, 3, 5, 0⟩] 1 [2] 2 false 1 [⟨1, 1, 3, 5, 0⟩] [2] :=
  c5_amended_no_retry c5wOracle 0 [⟨1, 1, 3, 5, 0⟩] 0 [2] 2 0 [] [2] 3 (by decide)
    (by decide) rfl rfl (by decide)

/-- Oracle for the C6 counterexample: the first response yields record 1
and advertises tile id 7; the second query fails with a transport error;
any further query would return record 2. -/
def c6Oracle : Oracle
  | 0 => Except.ok ⟨5, [1], [⟨2, 3, 4, 7, 0⟩]⟩
  | 1 => Except.error ()
  | _ => Except.ok ⟨5, [2], []⟩

/-- C6 counterexample: after the transport error at oracle index 1 the
window run stops immediately with the pre-initialised result: the already
aggregated record 1 is discarded (count 0) and the pending tile id 7 is
never queried (the queried trace holds only the two seed tiles and the
oracle index stops at 2), contradicting the claim that the run proceeds
with the remaining tiles of the window. -/
theorem c6_counterexample :
    c6Oracle 1 = Except.error () ∧
    fetch_properties c6Oracle 0 0 0 0 0 10 =
      some ⟨initResult, 2, [⟨0, 0, 0, 0, 0⟩, ⟨0, 0, 0, 1, 0⟩], [1]⟩ ∧
    (7 : Int) ∉ ([⟨0, 0, 0, 0, 0⟩, ⟨0, 0, 0, 1, 0⟩] : List Tile).map Tile.id :=
  ⟨rfl, rfl, by decide⟩

/-- C6 (corrected): a transport error inside the tile loop is caught by the
try/except of fetch_properties and is not propagated, but it does NOT let
the window continue: the loop returns at once with the pre-initialised
result, abandoning the remaining tiles and discarding the aggregate built
so far.  The per-year orchestration survives: resolveYear on a window whose
first query fails returns normally (empty contribution), so later years,
buckets and areas continue to be processed. -/
theorem c6_amended_error_handling :
    (∀ (oracle : Oracle) (pt : Nat) (tiles : List Tile) (i : Nat) (allDf : List Int)
      (tf : Nat) (isF : Bool) (q : Nat) (qd : List Tile) (sn : List Int) (fuel : Nat)
      (h : i < tiles.length),
      oracle q = Except.error () →
      fetchLoop oracle 0 pt (fuel + 1) tiles i allDf tf isF q qd sn =
        some ⟨initResult, q + 1, qd ++ [tiles.get ⟨i, h⟩], sn⟩) ∧
    (∀ (oracle : Oracle) (q : Nat) (lat lon : Int) (fuel gas : Nat),
      oracle q = Except.error () →
      resolveYear oracle q lat lon (fuel + 1) gas = some ([], q + 1)) := by
  constructor
  · intro oracle pt tiles i allDf tf isF q qd sn fuel h he
    exact fetchLoop_error_step oracle pt tiles i allDf tf isF q qd sn fuel h he
  · intro oracle q lat lon fuel gas he
    have hfe : fetch_properties oracle q 0 0 lat lon (fuel + 1) =
        some ⟨initResult, q + 1, [⟨0, 0, 0, 0, 0⟩], []⟩ := by
      rw [fetch_properties]
      exact fetchLoop_error_step oracle 0 _ 0 [] 0 true q [] [] fuel (by simp) he
    simp only [resolveYear, hfe]
    rfl

/-- Witness oracle for the amended C6 statement. -/
def c6wOracle : Oracle := fun _ => Except.error ()

/-- C6 witness: concrete error step and concrete surviving year. -/
theorem c6_amended_error_handling_witness :
    fetchLoop c6wOracle 0 0 8 [⟨9, 9, 2, 4, 0⟩] 0 [3] 7 false 2 [] [3] =
      some ⟨initResult, 3, [⟨9, 9, 2, 4, 0⟩], [3]⟩ ∧
    resolveYear c6wOracle 0 0 0 6 9 = some ([], 1) :=
  ⟨c6_amended_error_handling.1 c6wOracle 0 [⟨9, 9, 2, 4, 0⟩] 0 [3] 7 false 2 [] [3] 7
      (by decide) rfl,
    c6_amended_error_handling.2 c6wOracle 0 0 0 5 9 rfl⟩
/-- Oracle for the C2 counterexample: record 5 arrives on the first
response, the second query fails. -/
def c2Oracle : Oracle
  | 0 => Except.ok ⟨2, [5], []⟩
  | _ => Except.error ()

/-- C2 counterexample: the run merges record id 5 (one distinct id seen)
and then hits a transport error, whereupon fetch_properties returns the
pre-initialised result: reported count 0 and empty record set, although
one distinct id was seen — the reported record count does not equal the
number of distinct ids seen on this window. -/
theorem c2_counterexample :
    fetch_properties c2Oracle 0 0 0 0 0 10 =
      some ⟨initResult, 2, [⟨0, 0, 0, 0, 0⟩, ⟨0, 0, 0, 1, 0⟩], [5]⟩ ∧
    (dedupById [5]).length = 1 ∧ initResult.count = 0 :=
  ⟨rfl, rfl, rfl⟩

/-- C2 (corrected): the deduplication invariant holds except on error
paths.  First, unconditionally, the df of every fetch_properties result is
duplicate free and the reported count is its length.  Second, when no
query of the window errors, the result df is exactly the deduplication of
every record id merged, so the count equals the number of distinct ids
seen.  Third, the price subdivision never aggregates records at all (its
bucket fetches fail before any HTTP request because the positional
argument mismatch sends the nonzero price_from into the tile parameter of
MLXAPI.search), so its result df is empty and trivially duplicate free. -/
theorem c2_amended_dedup :
    (∀ (oracle : Oracle) (q pf pt : Nat) (lat lon : Int) (fuel : Nat) (out : FetchOut),
      fetch_properties oracle q pf pt lat lon fuel = some out →
      out.res.df.Nodup ∧ out.res.count = out.res.df.length) ∧
    (∀ (oracle : Oracle) (q pt : Nat) (lat lon : Int) (fuel : Nat) (out : FetchOut),
      (∀ k, ∃ r, oracle k = Except.ok r) →
      fetch_properties oracle q 0 pt lat lon fuel = some out →
      out.res.df = dedupById out.seen ∧ out.res.count = (dedupById out.seen).length) ∧
    (∀ (oracle : Oracle) (lat lon : Int) (count fuel gas pf pt step q : Nat)
      (r : FetchResult) (q2 : Nat),
      0 < pf →
      fetch_properties_by_prices oracle lat lon count fuel gas pf pt step q =
        some (r, q2) →
      r.df = []) := by
  refine ⟨?_, ?_, ?_⟩
  · intro oracle q pf pt lat lon fuel out h
    exact fetch_df_nodup oracle q pf pt lat lon fuel out h
  · intro oracle q pt lat lon fuel out hok h
    have h1 := fetch_df_seen oracle pt q lat lon fuel out hok h
    have h2 := fetch_df_nodup oracle q 0 pt lat lon fuel out h
    exact ⟨h1, by rw [h2.2, h1]⟩
  · intro oracle lat lon count fuel gas pf pt step q r q2 hpf h
    exact (by_prices_pos_of_some oracle lat lon count fuel gas pf pt step q r q2 hpf h).1

/-- Witness oracle for the amended C2 statement. -/
def c2wOracle : Oracle := fun _ => Except.ok ⟨1, [4], []⟩

/-- C2 witness: the three amended conjuncts at concrete runs. -/
theorem c2_amended_dedup_witness :
    (([4] : List Int).Nodup ∧ (1 : Nat) = ([4] : List Int).length) ∧
    (([4] : List Int) = dedupById [4] ∧ (1 : Nat) = (dedupById [4]).length) ∧
    (⟨0, [], false⟩ : FetchResult).df = [] :=
  ⟨c2_amended_dedup.1 c2wOracle 0 0 0 0 0 2 ⟨⟨1, [4], true⟩, 1, [⟨0, 0, 0, 0, 0⟩], [4]⟩ rfl,
    c2_amended_dedup.2.1 c2wOracle 0 0 0 0 2 ⟨⟨1, [4], true⟩, 1, [⟨0, 0, 0, 0, 0⟩], [4]⟩
      (fun _ => ⟨⟨1, [4], []⟩, rfl⟩) rfl,
    c2_amended_dedup.2.2 c2wOracle 0 0 5 1 30 100000 2000000 100000 0 ⟨0, [], false⟩ 0
      (by decide) rfl⟩

/-- Oracle for the C3 counterexample: the first query reports two matches
but delivers no records; every later response is a nonempty different
total that the loop ignores for the target. -/
def c3Oracle : Oracle
  | 0 => Except.ok ⟨2, [], []⟩
  | _ => Except.ok ⟨9, [], []⟩

/-- C3 counterexample: the window observes total_found = 2 on its first
query and retrieves 0 records, so the tile phase ends incomplete with
count 0; the price-subdivision fallback is then called with count = 0 (the
retrieved count, per line 357 of src/scraper.py) and returns found_all =
TRUE — reported complete although the aggregated unique record count 0
differs from the first-observed total_found 2.  The completeness target of
the fallback is the retrieved count, not total_found. -/
theorem c3_counterexample :
    c3Oracle 0 = Except.ok ⟨2, [], []⟩ ∧
    fetch_properties c3Oracle 0 0 0 0 0 10 =
      some ⟨⟨0, [], false⟩, 2, [⟨0, 0, 0, 0, 0⟩, ⟨0, 0, 0, 1, 0⟩], []⟩ ∧
    fetch_properties_by_prices c3Oracle 0 0 0 10 25 PRICE_FROM PRICE_TO PRICE_STEP 2 =
      some (⟨0, [], true⟩, 2) :=
  ⟨rfl, rfl, rfl⟩

/-- C3 (corrected): two different completeness targets coexist.  First, on
a window none of whose queries errors, the found_all flag of the
fetch_properties result compares the retrieved unique count with the
total_found of the first response, with equality.  Second, the found_all
flag of a fetch_properties_by_prices result (above the floor) instead
compares the length of its own aggregate with the count argument — the
record count retrieved by the initial fetch, which the call sites pass —
not with total_found. -/
theorem c3_amended_targets :
    (∀ (oracle : Oracle) (pt q : Nat) (lat lon : Int) (fuel : Nat)
      (resp : MLXAPIResponse) (out : FetchOut),
      (∀ k, ∃ r, oracle k = Except.ok r) →
      oracle q = Except.ok resp →
      fetch_properties oracle q 0 pt lat lon fuel = some out →
      out.res.found_all = (out.res.count == resp.total_found)) ∧
    (∀ (oracle : Oracle) (lat lon : Int) (count fuel gas pf pt step q : Nat)
      (r : FetchResult) (q2 : Nat),
      MIN_PRICE_STEP ≤ step →
      fetch_properties_by_prices oracle lat lon count fuel gas pf pt step q =
        some (r, q2) →
      r.found_all = (r.count == count)) := by
  constructor
  · intro oracle pt q lat lon fuel resp out hok hq h
    exact fetch_found_all oracle pt q lat lon fuel resp out hok hq h
  · intro oracle lat lon count fuel gas pf pt step q r q2 hstep h
    rw [fetch_properties_by_prices, if_neg (not_lt.mpr hstep)] at h
    cases hb : bpAux oracle lat lon count fuel gas step (pyRange pf pt step) [] q with
    | none => rw [hb] at h; simp at h
    | some s =>
      obtain ⟨adf, q3⟩ := s
      rw [hb] at h
      cases Option.some.inj h
      rfl

/-- Witness oracle for the amended C3 statement. -/
def c3wOracle : Oracle := fun _ => Except.ok ⟨1, [4], []⟩

/-- C3 witness: both amended conjuncts at concrete runs. -/
theorem c3_amended_targets_witness :
    (true : Bool) = ((1 : Nat) == 1) ∧ (false : Bool) = ((0 : Nat) == 5) :=
  ⟨c3_amended_targets.1 c3wOracle 0 0 0 0 2 ⟨1, [4], []⟩
      ⟨⟨1, [4], true⟩, 1, [⟨0, 0, 0, 0, 0⟩], [4]⟩ (fun _ => ⟨⟨1, [4], []⟩, rfl⟩) rfl rfl,
    c3_amended_targets.2 c3wOracle 0 0 5 1 30 100000 2000000 100000 0 ⟨0, [], false⟩ 0
      (by decide) rfl⟩
/-- C8 (confirmed): once the aggregated unique count reaches the target,
no further remote queries are issued for the window.  First, the moment a
merge brings the aggregate up to total_found, the tile loop returns with
that very query (the oracle index advances only by the query that produced
the merge); no pending tile is queried.  Second, when the fetch result
reports found_all, the per-year resolution returns at the same oracle
index — the price subdivision is not invoked.  Third, even when the price
subdivision is invoked with a positive price lower bound (the call sites
pass PRICE_FROM = 100000) it consults the oracle zero times: the returned
index equals the starting index. -/
theorem c8_complete_stops_queries :
    (∀ (oracle : Oracle) (pt : Nat) (tiles : List Tile) (i : Nat) (allDf : List Int)
      (tf q : Nat) (qd : List Tile) (sn : List Int) (fuel : Nat)
      (resp : MLXAPIResponse) (h : i < tiles.length),
      oracle q = Except.ok resp →
      tf ≤ (dedupById (allDf ++ resp.records)).length →
      fetchLoop oracle 0 pt (fuel + 1) tiles i allDf tf false q qd sn =
        some ⟨⟨(dedupById (allDf ++ resp.records)).length, dedupById (allDf ++ resp.records),
          (dedupById (allDf ++ resp.records)).length == tf⟩, q + 1,
          qd ++ [tiles.get ⟨i, h⟩], sn ++ resp.records⟩) ∧
    (∀ (oracle : Oracle) (q : Nat) (lat lon : Int) (fuel gas : Nat) (out : FetchOut),
      fetch_properties oracle q 0 0 lat lon fuel = some out →
      out.res.found_all = true →
      ∃ df, resolveYear oracle q lat lon fuel gas = some (df, out.q)) ∧
    (∀ (oracle : Oracle) (lat lon : Int) (count fuel gas pf pt step q : Nat)
      (r : FetchResult) (q2 : Nat),
      0 < pf →
      fetch_properties_by_prices oracle lat lon count fuel gas pf pt step q =
        some (r, q2) →
      q2 = q) := by
  refine ⟨?_, ?_, ?_⟩
  · intro oracle pt tiles i allDf tf q qd sn fuel resp h ho hreach
    exact fetchLoop_reach_step oracle pt tiles i allDf tf q qd sn fuel resp h ho hreach
  · intro oracle q lat lon fuel gas out h hfa
    simp only [resolveYear, h]
    by_cases hc : out.res.count = 0
    · rw [if_pos ⟨hfa, hc⟩]
      exact ⟨[], rfl⟩
    · rw [if_neg (by simp [hc])]
      rw [if_pos hfa]
      exact ⟨dedupById out.res.df, rfl⟩
  · intro oracle lat lon count fuel gas pf pt step q r q2 hpf h
    exact (by_prices_pos_of_some oracle lat lon count fuel gas pf pt step q r q2 hpf h).2.2

/-- Witness oracle for C8: one query suffices for completeness. -/
def c8Oracle : Oracle := fun _ => Except.ok ⟨1, [4], []⟩

/-- C8 witness: the three conjuncts at concrete runs. -/
theorem c8_complete_stops_queries_witness :
    fetchLoop c8Oracle 0 0 3 [⟨7, 7, 0, 2, 0⟩] 0 [] 1 false 0 [] [] =
      some ⟨⟨(dedupById ([] ++ [4])).length, dedupById ([] ++ [4]),
        (dedupById ([] ++ [4])).length == 1⟩, 1, [⟨7, 7, 0, 2, 0⟩], [4]⟩ ∧
    (∃ df, resolveYear c8Oracle 0 0 0 2 5 = some (df, 1)) ∧
    (6 : Nat) = 6 :=
  ⟨c8_complete_stops_queries.1 c8Oracle 0 [⟨7, 7, 0, 2, 0⟩] 0 [] 1 0 [] [] 2
      ⟨1, [4], []⟩ (by decide) rfl (by decide),
    c8_complete_stops_queries.2.1 c8Oracle 0 0 0 2 5
      ⟨⟨1, [4], true⟩, 1, [⟨0, 0, 0, 0, 0⟩], [4]⟩ rfl rfl,
    c8_complete_stops_queries.2.2 c8Oracle 0 0 5 1 30 100000 2000000 100000 6
      ⟨0, [], false⟩ 6 (by decide) rfl⟩

/-- C9 (confirmed): tile identity is the id field alone and no tile id is
queried twice.  First, membership of a tile in the work list, as used by
the guard of the append loop, holds exactly when some tile of the list
carries the same id, whatever the other fields are.  Second, a tile
present after the append loop either was already in the work list or comes
from the response with an id absent from the work list.  Third, on every
terminating fetch_properties run the trace of tiles for which a search
call was issued has pairwise distinct ids. -/
theorem c9_tile_identity :
    (∀ (t : Tile) (ts : List Tile), tileMem t ts = true ↔ t.id ∈ ts.map Tile.id) ∧
    (∀ (ts tiles : List Tile) (u : Tile),
      u ∈ addNewTiles tiles ts → u ∈ tiles ∨ (u ∈ ts ∧ u.id ∉ tiles.map Tile.id)) ∧
    (∀ (oracle : Oracle) (q pf pt : Nat) (lat lon : Int) (fuel : Nat) (out : FetchOut),
      fetch_properties oracle q pf pt lat lon fuel = some out →
      (out.queried.map Tile.id).Nodup) :=
  ⟨tileMem_iff, addNewTiles_mem, fetch_queried_nodup⟩

/-- Witness oracle for C9. -/
def c9Oracle : Oracle := fun _ => Except.ok ⟨1, [4], []⟩

/-- C9 witness: two tiles differing in every field but id are identified;
a genuinely new id is appended as new; the queried trace of a concrete run
has distinct ids. -/
theorem c9_tile_identity_witness :
    tileMem ⟨1, 2, 3, 7, 4⟩ [⟨9, 9, 9, 7, 9⟩] = true ∧
    ((⟨8, 8, 8, 7, 8⟩ : Tile) ∈ ([⟨0, 0, 0, 0, 0⟩] : List Tile) ∨
      ((⟨8, 8, 8, 7, 8⟩ : Tile) ∈ ([⟨8, 8, 8, 7, 8⟩] : List Tile) ∧
        (⟨8, 8, 8, 7, 8⟩ : Tile).id ∉ ([⟨0, 0, 0, 0, 0⟩] : List Tile).map Tile.id)) ∧
    (([⟨0, 0, 0, 0, 0⟩] : List Tile).map Tile.id).Nodup :=
  ⟨(c9_tile_identity.1 ⟨1, 2, 3, 7, 4⟩ [⟨9, 9, 9, 7, 9⟩]).mpr (by decide),
    c9_tile_identity.2.1 [⟨8, 8, 8, 7, 8⟩] [⟨0, 0, 0, 0, 0⟩] ⟨8, 8, 8, 7, 8⟩ (by decide),
    c9_tile_identity.2.2 c9Oracle 0 0 0 0 0 2
      ⟨⟨1, [4], true⟩, 1, [⟨0, 0, 0, 0, 0⟩], [4]⟩ rfl⟩
/-- C1 counterexample: against the adversarial response stream advOracle —
every response reports two matches, repeats the single record id 1 and
offers one never-seen tile id — the tile loop of fetch_properties runs
forever: no fuel bound makes it return.  The unseen-id guard alone does
not bound the number of queries, because the remote may keep minting fresh
tile ids. -/
theorem c1_counterexample : ¬ fetchTerminates advOracle 0 0 0 0 0 := by
  rintro ⟨fuel, hs⟩
  cases fuel with
  | zero => simp [fetch_properties, fetchLoop] at hs
  | succ fuel =>
    rw [fetch_properties] at hs
    have hadv : advOracle 0 = Except.ok ⟨2, [1], [⟨0, 0, 1, ((0 : Nat) : Int) + 3, 0⟩]⟩ := rfl
    rw [fetchLoop_ok_step_first advOracle 0 _ 0 [] 0 0 [] [] fuel _ (by simp) hadv] at hs
    rw [if_neg (by norm_num)] at hs
    rw [if_neg (by norm_num [dedupById, dedupAux])] at hs
    have haddt : addNewTiles [⟨0, 0, 0, 0, 0⟩, ⟨0, 0, 0, 1, 0⟩]
        [⟨0, 0, 1, ((0 : Nat) : Int) + 3, 0⟩] =
        [⟨0, 0, 0, 0, 0⟩, ⟨0, 0, 0, 1, 0⟩, ⟨0, 0, 1, ((0 : Nat) : Int) + 3, 0⟩] := by
      decide
    have hs2 : (fetchLoop advOracle 0 0 fuel
        (addNewTiles [⟨0, 0, 0, 0, 0⟩, ⟨0, 0, 0, 1, 0⟩]
          [⟨0, 0, 1, ((0 : Nat) : Int) + 3, 0⟩]) 1 (dedupById ([] ++ [1])) 2 false 1
        ([] ++ [⟨0, 0, 0, 0, 0⟩]) ([] ++ [1])).isSome := hs
    rw [haddt] at hs2
    have hded : dedupById ([] ++ [1]) = [1] := rfl
    rw [hded] at hs2
    have hnone := advLoop_none fuel 1
      [⟨0, 0, 0, 0, 0⟩, ⟨0, 0, 0, 1, 0⟩, ⟨0, 0, 1, ((0 : Nat) : Int) + 3, 0⟩]
      ([] ++ [⟨0, 0, 0, 0, 0⟩]) ([] ++ [1]) (by simp)
      (by intro t ht; fin_cases ht <;> norm_num)
    rw [hnone] at hs2
    simp at hs2

/-- C1 (corrected): the resolution of a window does return after finitely
many queries PROVIDED the tile ids occurring in the responses range over a
finite set: the work list then keeps pairwise distinct ids drawn from that
set plus the two seed ids, so the loop runs at most card + 2 iterations,
and the price subdivision adds no queries (its floor check stops every
recursion level, step being divided by 10 each time, and with the actual
call convention its bucket fetches fail before any HTTP request). -/
theorem c1_amended_termination (oracle : Oracle) (q : Nat) (lat lon : Int)
    (S : Finset Int)
    (hS : ∀ k r, oracle k = Except.ok r → ∀ t ∈ r.tiles, t.id ∈ S) :
    ∃ fuel gas, (resolveYear oracle q lat lon fuel gas).isSome := by
  refine ⟨(S ∪ {0, 1}).card + 2, (pyRange PRICE_FROM PRICE_TO PRICE_STEP).length + 1, ?_⟩
  have hf := fetch_isSome oracle 0 q lat lon S hS
  obtain ⟨out, hout⟩ := Option.isSome_iff_exists.mp hf
  simp only [resolveYear, hout]
  by_cases hc : out.res.found_all = true ∧ out.res.count = 0
  · rw [if_pos hc]
    rfl
  · rw [if_neg hc]
    by_cases hfa : out.res.found_all = true
    · rw [if_pos hfa]
      rfl
    · rw [if_neg hfa]
      rw [by_prices_pos_eq oracle lat lon out.res.count ((S ∪ {0, 1}).card + 2)
        ((pyRange PRICE_FROM PRICE_TO PRICE_STEP).length + 1) PRICE_FROM PRICE_TO
        PRICE_STEP out.q (by decide) (by omega) (by decide) (by omega)]
      rfl

/-- Witness oracle for the amended C1 statement: all tile ids (there are
none) lie in the empty set. -/
def c1wOracle : Oracle := fun _ => Except.ok ⟨0, [], []⟩

/-- C1 witness: the amended termination theorem at a concrete oracle. -/
theorem c1_amended_termination_witness :
    ∃ fuel gas, (resolveYear c1wOracle 0 0 0 fuel gas).isSome :=
  c1_amended_termination c1wOracle 0 0 0 ∅ (by
    intro k r hr t ht
    simp only [c1wOracle] at hr
    injection hr with h
    subst h
    simp at ht)

end CalgaryMLX
